import Mathlib

/-!
Verification of the appointment-booking availability engine
(`src/appointments.py`, `src/models.py`).

Shallow embedding conventions:
* All timestamps are integers counting minutes from an epoch that falls on a
  Monday midnight, so `t / 1440` is the calendar-day number (day 0 is a
  Monday), `t % 1440` is the wall-clock time-of-day in minutes, and
  `(t / 1440) % 7` is the weekday index (0 = Monday … 6 = Sunday).  Python's
  `datetime.date()` / `.time()` / `strftime("%A")` are floor operations of
  exactly this shape, and Lean's `Int` division/modulo (E-division with a
  positive divisor) agrees with Python's floor division.
* `TimeSlot` start/end values are minutes after midnight (the Python model
  stores wall-clock `time` values; second precision is never used by the
  engine, which only reads `hour`/`minute`).
* The Firestore document store is modelled as in-memory lists (`Store`);
  `db.get(coll, id, M)` is `List.find?` on the id field (documents are keyed
  by that field throughout the code base) and `db.list(coll, M, filters)` is
  `List.filter` with the same comparisons (ISO-8601 strings compare
  lexicographically exactly as the underlying instants compare).
* Python `while` loops are embedded with an explicit fuel parameter returning
  `Option`: `none` means the loop had not yet terminated within the given
  fuel bound, so `∀ fuel, … = none` states non-termination of the source
  loop, and every statement about actual output is conditioned on a `some`
  result.
* Optional list/dict fields (`exceptions`, `unavailable_dates`, the weekday
  entries of `WeeklySchedule`) are modelled as (possibly empty) lists:
  Python treats `None` and the empty collection identically in every
  truthiness test the engine performs on them.
* Fields of the Python models that the engine never reads (presentation
  fields such as `AppointmentType.price : float`, `description`, `color`,
  provider/customer contact data) are omitted from the corresponding
  structures.
-/

/-- Minutes-of-day pair, from `models.TimeSlot` (`start`/`end` wall-clock
times of one calendar day). -/
structure TimeSlot where
  start : Int
  «end» : Int
deriving DecidableEq, Repr

/-- Day number of a timestamp in minutes: Python `datetime.date()`. -/
def dateOf (t : Int) : Int := t / 1440

/-- Time-of-day of a timestamp in minutes: Python `datetime.time()`. -/
def todOf (t : Int) : Int := t % 1440

/-- Weekday index of a timestamp (0 = Monday … 6 = Sunday): Python
`strftime("%A").lower()`. -/
def weekdayOf (t : Int) : Int := (dateOf t) % 7

/-- Mapping weekday to working intervals, from `models.WeeklySchedule`;
an absent (`None`) weekday is the empty list. -/
structure WeeklySchedule where
  monday : List TimeSlot
  tuesday : List TimeSlot
  wednesday : List TimeSlot
  thursday : List TimeSlot
  friday : List TimeSlot
  saturday : List TimeSlot
  sunday : List TimeSlot
deriving DecidableEq, Repr

/-- Field selection `getattr(weekly_schedule, day_of_week)` for the weekday
index of `weekdayOf`. -/
def WeeklySchedule.day (ws : WeeklySchedule) (w : Int) : List TimeSlot :=
  if w = 0 then ws.monday
  else if w = 1 then ws.tuesday
  else if w = 2 then ws.wednesday
  else if w = 3 then ws.thursday
  else if w = 4 then ws.friday
  else if w = 5 then ws.saturday
  else ws.sunday

/-- Availability profile, from `models.Availability`.  `exceptions` maps a
calendar-day number to replacement intervals; `unavailable_dates` holds the
blackout instants (Python stores `datetime` values and compares their
`.date()`). -/
structure Availability where
  provider_id : String
  weekly_schedule : WeeklySchedule
  exceptions : List (Int × List TimeSlot)
  unavailable_dates : List Int
deriving DecidableEq, Repr

/-- Booking status, from `models.AppointmentStatus`. -/
inductive AppointmentStatus where
  | scheduled
  | cancelled
  | completed
  | no_show
deriving DecidableEq, Repr, BEq

/-- Booking record, from `models.Appointment`. -/
structure Appointment where
  id : String
  provider_id : String
  customer_id : String
  appointment_type_id : String
  start_time : Int
  end_time : Int
  status : AppointmentStatus
  notes : Option String
  created_at : Int
  updated_at : Int
deriving DecidableEq, Repr

/-- Service type, from `models.AppointmentType` (presentation fields
omitted). -/
structure AppointmentType where
  id : String
  name : String
  duration_minutes : Int
deriving DecidableEq, Repr

/-- Provider record, from `models.Provider` (contact fields omitted). -/
structure Provider where
  id : String
  name : String
  appointment_types : List String
  active : Bool
deriving DecidableEq, Repr

/-- Customer record, from `models.Customer` (contact fields omitted). -/
structure Customer where
  id : String
  name : String
deriving DecidableEq, Repr

/-- Slot search result row, from `appointments.AvailableSlot`. -/
structure AvailableSlot where
  provider_id : String
  provider_name : String
  start_time : Int
  end_time : Int
deriving DecidableEq, Repr

/-- Booking request body, from `appointments.AppointmentCreate`. -/
structure AppointmentCreate where
  provider_id : String
  customer_id : String
  appointment_type_id : String
  start_time : Int
  notes : Option String
deriving DecidableEq, Repr

/-- Contents of the Firestore collections used by `appointments.py`
(availability documents are keyed by `provider_id`, the other collections by
the `id` field). -/
structure Store where
  appointments : List Appointment
  providers : List Provider
  appointment_types : List AppointmentType
  customers : List Customer
  availability : List Availability
deriving DecidableEq, Repr

/-- Half-open interval overlap test used verbatim in both
`check_provider_availability` (line 323) and
`find_available_slots_for_provider` (lines 384-385):
`start_time < appt.end_time and end_time > appt.start_time`. -/
def overlapsB (ws we bs be : Int) : Bool :=
  decide (ws < be) && decide (we > bs)

/-- Embedding of `appointments.check_provider_availability`. -/
def check_provider_availability (store : Store) (provider_id : String)
    (start_time end_time : Int) (exclude_appointment_id : Option String) : Bool :=
  match store.availability.find? (fun a => a.provider_id == provider_id) with
  | none => false
  | some availability =>
    let day_schedule := availability.weekly_schedule.day (weekdayOf start_time)
    if day_schedule.isEmpty then false
    else
      let start_time_time := todOf start_time
      let end_time_time := todOf end_time
      let appointment_in_working_hours := day_schedule.any fun time_slot =>
        decide (start_time_time ≥ time_slot.start) && decide (end_time_time ≤ time_slot.«end»)
      if !appointment_in_working_hours then false
      else
        let appointment_date := dateOf start_time
        if availability.unavailable_dates.any (fun d => dateOf d == appointment_date) then
          false
        else
          let existing_appointments := store.appointments.filter fun a =>
            a.provider_id == provider_id &&
            decide (a.start_time ≥ appointment_date * 1440) &&
            decide (a.start_time < (appointment_date + 1) * 1440) &&
            a.status == AppointmentStatus.scheduled
          !(existing_appointments.any fun appt =>
            !(match exclude_appointment_id with
              | some ex => appt.id == ex
              | none => false) &&
            overlapsB start_time end_time appt.start_time appt.end_time)

/-- Innermost `while current_slot_start + duration <= slot_end` loop of
`find_available_slots_for_provider` (lines 378-398), with explicit fuel;
`none` means the loop has not terminated within `fuel` iterations. -/
def slotLoop (fuel : Nat) (booked : List Appointment) (pid pname : String)
    (dur stride : Int) (cursor slot_end : Int) : Option (List AvailableSlot) :=
  match fuel with
  | 0 => none
  | fuel + 1 =>
    if cursor + dur ≤ slot_end then
      let slot_finish := cursor + dur
      let conflict := booked.any fun appt =>
        overlapsB cursor slot_finish appt.start_time appt.end_time
      match slotLoop fuel booked pid pname dur stride (cursor + stride) slot_end with
      | none => none
      | some rest =>
        some (if conflict then rest
              else ⟨pid, pname, cursor, slot_finish⟩ :: rest)
    else some []

/-- Loop over one day's `day_schedule` time slots
(`for time_slot in day_schedule`, lines 363-398). -/
def intervalLoop (fuel : Nat) (booked : List Appointment) (pid pname : String)
    (dur : Int) (day : Int) : List TimeSlot → Option (List AvailableSlot)
  | [] => some []
  | ts :: rest =>
    match slotLoop fuel booked pid pname dur (min dur 30) (day + ts.start) (day + ts.«end») with
    | none => none
    | some here =>
      match intervalLoop fuel booked pid pname dur day rest with
      | none => none
      | some more => some (here ++ more)

/-- Outer `while current_date < end_date` day loop of
`find_available_slots_for_provider` (lines 358-401), stepping one day
(1440 minutes) at a time. -/
def dayLoop (fuel : Nat) (av : Availability) (booked : List Appointment)
    (pid pname : String) (dur : Int) (current_date end_date : Int) :
    Option (List AvailableSlot) :=
  match fuel with
  | 0 => none
  | fuel + 1 =>
    if current_date < end_date then
      let day_schedule := av.weekly_schedule.day (weekdayOf current_date)
      match intervalLoop fuel booked pid pname dur current_date day_schedule with
      | none => none
      | some today =>
        match dayLoop fuel av booked pid pname dur (current_date + 1440) end_date with
        | none => none
        | some rest => some (today ++ rest)
    else some []

/-- Embedding of `appointments.find_available_slots_for_provider`.  The
booking snapshot is pre-filtered once for the whole range
(`start_time >= start_date`, `start_time < end_date`, status scheduled,
lines 348-355) and iteration starts from midnight of the start date
(`start_date.replace(hour=0, minute=0, ...)`, line 340). -/
def find_available_slots_for_provider (fuel : Nat) (store : Store)
    (provider_id provider_name : String) (start_date end_date : Int)
    (appointment_duration : Int) : Option (List AvailableSlot) :=
  match store.availability.find? (fun a => a.provider_id == provider_id) with
  | none => some []
  | some availability =>
    let booked := store.appointments.filter fun a =>
      a.provider_id == provider_id &&
      decide (a.start_time ≥ start_date) &&
      decide (a.start_time < end_date) &&
      a.status == AppointmentStatus.scheduled
    dayLoop fuel availability booked provider_id provider_name appointment_duration
      (1440 * dateOf start_date) end_date

/-- Loop `for provider in providers` of `get_available_slots`
(lines 246-254). -/
def providerLoop (fuel : Nat) (store : Store) (start_date end_date : Int)
    (dur : Int) : List Provider → Option (List AvailableSlot)
  | [] => some []
  | p :: rest =>
    match find_available_slots_for_provider fuel store p.id p.name start_date end_date dur with
    | none => none
    | some here =>
      match providerLoop fuel store start_date end_date dur rest with
      | none => none
      | some more => some (here ++ more)

/-- Comparison key of the final `available_slots.sort(key=lambda s: s.start_time)`
(line 257). -/
def slotLE (a b : AvailableSlot) : Prop := a.start_time ≤ b.start_time

instance : DecidableRel slotLE := fun a b => by
  unfold slotLE
  infer_instance

/-- Embedding of the `appointments.get_available_slots` endpoint.
`Except.error` is a raised `HTTPException`; `Except.ok none` means the
computation did not terminate within `fuel`. -/
def get_available_slots (fuel : Nat) (store : Store)
    (provider_id appointment_type_id : Option String)
    (start_date end_date : Int) : Except String (Option (List AvailableSlot)) :=
  let duration_found : Except String Int :=
    match appointment_type_id with
    | none => Except.ok 30
    | some atid =>
      match store.appointment_types.find? (fun t => t.id == atid) with
      | none => Except.error "Appointment type not found"
      | some t => Except.ok t.duration_minutes
  match duration_found with
  | Except.error e => Except.error e
  | Except.ok appointment_duration =>
    let providers :=
      match provider_id with
      | some pid => store.providers.filter (fun p => p.id == pid)
      | none =>
        store.providers.filter fun p =>
          p.active &&
          (match appointment_type_id with
           | some atid => p.appointment_types.contains atid
           | none => true)
    if providers.isEmpty then Except.ok (some [])
    else
      match providerLoop fuel store start_date end_date appointment_duration providers with
      | none => Except.ok none
      | some available_slots =>
        Except.ok (some (List.insertionSort slotLE available_slots))

/-- Containment of a time-of-day window in some interval of a list, the test
performed by the working-hours loop (lines 286-290): the window is inside a
`time_slot` iff `start >= time_slot.start` and `end <= time_slot.end`. -/
def windowWithin (intervals : List TimeSlot) (s e : Int) : Bool :=
  intervals.any fun time_slot =>
    decide (s ≥ time_slot.start) && decide (e ≤ time_slot.«end»)

/-- Specification-side resolver, transcribed from the spec's
`resolveWorkingIntervals` algorithm (blackout → empty; else exception entry
verbatim; else weekly entry).  This definition follows the spec's words, not
the source, and exists only to be compared against the code-derived
functions. -/
def specResolveWorkingIntervals (av : Availability) (date : Int) : List TimeSlot :=
  if av.unavailable_dates.any (fun d => dateOf d == date) then []
  else
    match av.exceptions.find? (fun e => e.1 == date) with
    | some e => e.2
    | none => av.weekly_schedule.day (date % 7)

/-- Validity of a stored interval as wall-clock times of one day: Python's
`time` type guarantees both endpoints lie in `[0, 1440)` minutes. -/
def TimeSlot.validTimes (ts : TimeSlot) : Prop :=
  0 ≤ ts.start ∧ ts.«end» < 1440

instance (ts : TimeSlot) : Decidable ts.validTimes := by
  unfold TimeSlot.validTimes; infer_instance

/-- Validity of every interval of a weekly schedule. -/
def WeeklySchedule.validTimes (ws : WeeklySchedule) : Prop :=
  (∀ ts ∈ ws.monday, ts.validTimes) ∧ (∀ ts ∈ ws.tuesday, ts.validTimes) ∧
  (∀ ts ∈ ws.wednesday, ts.validTimes) ∧ (∀ ts ∈ ws.thursday, ts.validTimes) ∧
  (∀ ts ∈ ws.friday, ts.validTimes) ∧ (∀ ts ∈ ws.saturday, ts.validTimes) ∧
  (∀ ts ∈ ws.sunday, ts.validTimes)

instance (ws : WeeklySchedule) : Decidable ws.validTimes := by
  unfold WeeklySchedule.validTimes; infer_instance

/-- Validity of every schedule stored in a store. -/
def Store.validTimes (st : Store) : Prop :=
  ∀ av ∈ st.availability, av.weekly_schedule.validTimes

instance (st : Store) : Decidable st.validTimes := by
  unfold Store.validTimes; infer_instance

/-- Replacement of the `exceptions` field of a profile. -/
def Availability.setExceptions (av : Availability)
    (ex : List (Int × List TimeSlot)) : Availability :=
  { av with exceptions := ex }

/-- Replacement of the `exceptions` field of every stored profile. -/
def Store.setExceptions (st : Store) (ex : List (Int × List TimeSlot)) : Store :=
  { st with availability := st.availability.map (fun a => a.setExceptions ex) }

/-- Replacement of the `unavailable_dates` field of a profile. -/
def Availability.setUnavailable (av : Availability) (ds : List Int) : Availability :=
  { av with unavailable_dates := ds }

/-- Replacement of the `unavailable_dates` field of every stored profile. -/
def Store.setUnavailable (st : Store) (ds : List Int) : Store :=
  { st with availability := st.availability.map (fun a => a.setUnavailable ds) }

/-- Weekly schedule working Monday 09:00-17:00 only (in minutes:
540-1020 on weekday 0). -/
def mondaySchedule : WeeklySchedule := ⟨[⟨540, 1020⟩], [], [], [], [], [], []⟩

/-- Profile with the Monday schedule and an exception on day 7 (a Monday)
replacing the hours by 13:00-15:00. -/
def avEx : Availability := ⟨"p1", mondaySchedule, [(7, [⟨780, 900⟩])], []⟩

/-- Store holding only `avEx`. -/
def storeEx : Store := ⟨[], [], [], [], [avEx]⟩

/-- Profile with the Monday schedule and day 7 (a Monday) blacked out. -/
def avBlk : Availability := ⟨"p1", mondaySchedule, [], [7 * 1440]⟩

/-- Store holding only `avBlk`. -/
def storeBlk : Store := ⟨[], [], [], [], [avBlk]⟩

/-- Plain profile with the Monday schedule, no exception, no blackout. -/
def avWk : Availability := ⟨"p1", mondaySchedule, [], []⟩

/-- Store holding only `avWk`. -/
def storeWk : Store := ⟨[], [], [], [], [avWk]⟩

/-- Store with a provider offering a zero-duration appointment type. -/
def storeDur : Store :=
  ⟨[], [⟨"p1", "Alice", ["t0"], true⟩], [⟨"t0", "zero", 0⟩], [], [avWk]⟩

/-- Scheduled booking 10:00-10:30 on day 7. -/
def bookTen : Appointment :=
  ⟨"b1", "p1", "c1", "t1", 7 * 1440 + 600, 7 * 1440 + 630,
   AppointmentStatus.scheduled, none, 0, 0⟩

/-- Store with the `bookTen` booking and the plain Monday profile. -/
def storeBook : Store := ⟨[bookTen], [], [], [], [avWk]⟩

/-- Scheduled booking 09:00-09:30 on day 7. -/
def bookNine : Appointment :=
  ⟨"b9", "p1", "c1", "t1", 7 * 1440 + 540, 7 * 1440 + 570,
   AppointmentStatus.scheduled, none, 0, 0⟩

/-- Store with the `bookNine` booking and the plain Monday profile. -/
def storeSnap : Store := ⟨[bookNine], [], [], [], [avWk]⟩

/-- Profile for a first provider working Monday 09:00-10:00. -/
def avOne : Availability :=
  ⟨"p1", ⟨[⟨540, 600⟩], [], [], [], [], [], []⟩, [], []⟩

/-- Profile for a second provider working Monday 09:20-10:20. -/
def avTwo : Availability :=
  ⟨"p2", ⟨[⟨560, 620⟩], [], [], [], [], [], []⟩, [], []⟩

/-- Store with two active providers for the aggregator. -/
def storeAgg : Store :=
  ⟨[], [⟨"p1", "Alice", ["t1"], true⟩, ⟨"p2", "Bob", ["t1"], true⟩],
   [⟨"t1", "consult", 30⟩], [], [avOne, avTwo]⟩

/-- Store with no documents at all. -/
def emptyStore : Store := ⟨[], [], [], [], []⟩

/-- Booking request used by the creation examples. -/
def reqOne : AppointmentCreate := ⟨"p1", "c1", "t1", 7 * 1440 + 600, none⟩

/-- Embedding of the `appointments.create_appointment` endpoint.  `new_id`
stands for the generated `uuid4` and `now` for `datetime.now()`.  The
returned store is the input store except on the single success path, which
appends the new appointment (`db.create`, line 100). -/
def create_appointment (store : Store) (appointment : AppointmentCreate)
    (new_id : String) (now : Int) : Store × Except String Appointment :=
  match store.providers.find? (fun p => p.id == appointment.provider_id) with
  | none => (store, Except.error "Provider not found or inactive")
  | some provider =>
    if !provider.active then (store, Except.error "Provider not found or inactive")
    else
      match store.appointment_types.find? (fun t => t.id == appointment.appointment_type_id) with
      | none => (store, Except.error "Appointment type not found")
      | some appt_type =>
        match store.customers.find? (fun c => c.id == appointment.customer_id) with
        | none => (store, Except.error "Customer not found")
        | some _ =>
          if !(provider.appointment_types.contains appointment.appointment_type_id) then
            (store, Except.error "This provider does not offer this appointment type")
          else
            let end_time := appointment.start_time + appt_type.duration_minutes
            if !(check_provider_availability store appointment.provider_id
                   appointment.start_time end_time none) then
              (store, Except.error "Provider is not available at this time")
            else
              let new_appointment : Appointment :=
                { id := new_id
                  provider_id := appointment.provider_id
                  customer_id := appointment.customer_id
                  appointment_type_id := appointment.appointment_type_id
                  start_time := appointment.start_time
                  end_time := end_time
                  status := AppointmentStatus.scheduled
                  notes := appointment.notes
                  created_at := now
                  updated_at := now }
              ({ store with appointments := store.appointments ++ [new_appointment] },
               Except.ok new_appointment)

/-!  Helper lemmas about the generation loops. -/

theorem slotLoop_nonpos_none (b : List Appointment) (pid pn : String)
    (dur stride e : Int) (hs : stride ≤ 0) (hd : dur ≤ 0) :
    ∀ (fuel : Nat) (c : Int), c + dur ≤ e →
      slotLoop fuel b pid pn dur stride c e = none := by
  intro fuel
  induction fuel with
  | zero => intro c _; rfl
  | succ f ih =>
    intro c hg
    rw [slotLoop, if_pos hg, ih (c + stride) (by omega)]

theorem slotLoop_nonpos_eq_nil (b : List Appointment) (pid pn : String)
    {dur stride c e : Int} (hs : stride ≤ 0) (hd : dur ≤ 0) {fuel : Nat}
    {l : List AvailableSlot} (h : slotLoop fuel b pid pn dur stride c e = some l) :
    l = [] := by
  by_cases hg : c + dur ≤ e
  · rw [slotLoop_nonpos_none b pid pn dur stride e hs hd fuel c hg] at h
    exact absurd h (by simp)
  · cases fuel with
    | zero => exact absurd h (by simp [slotLoop])
    | succ f =>
      rw [slotLoop, if_neg hg] at h
      cases h
      rfl

theorem dayLoop_avWk_nonpos_none (b : List Appointment) (pid pn : String)
    (dur : Int) (hd : dur ≤ 0) :
    ∀ fuel : Nat, dayLoop fuel avWk b pid pn dur (1440 * 7) (8 * 1440) = none := by
  intro fuel
  cases fuel with
  | zero => rfl
  | succ f =>
    have hint : intervalLoop f b pid pn dur (1440 * 7)
        (avWk.weekly_schedule.day (weekdayOf (1440 * 7))) = none := by
      have hday : avWk.weekly_schedule.day (weekdayOf (1440 * 7)) =
          [⟨540, 1020⟩] := rfl
      rw [hday, intervalLoop,
        slotLoop_nonpos_none b pid pn dur (min dur 30) (1440 * 7 + 1020)
          (le_trans (min_le_left _ _) hd) hd f (1440 * 7 + 540) (by omega)]
    rw [dayLoop, if_pos (by norm_num)]
    simp only [hint]

/-- Claim C3: the code performs no duration validation.  With a non-positive
duration the stride is non-positive as well, the slot loop's cursor never
passes the interval end, and generation never terminates (`none` for every
fuel bound); the slot endpoint raises no error either: it returns
`Except.ok none` (divergence) instead of rejecting the zero-duration
appointment type before generation. -/
theorem C3_generation_never_rejects_nonpositive_duration :
    (∀ (fuel : Nat) (dur : Int), dur ≤ 0 →
       find_available_slots_for_provider fuel storeWk "p1" "P" (7 * 1440) (8 * 1440) dur = none) ∧
    (∀ fuel : Nat,
       get_available_slots fuel storeDur (some "p1") (some "t0") (7 * 1440) (8 * 1440) =
         Except.ok none) := by
  constructor
  · intro fuel dur hd
    have h1 : find_available_slots_for_provider fuel storeWk "p1" "P"
        (7 * 1440) (8 * 1440) dur =
        dayLoop fuel avWk [] "p1" "P" dur (1440 * 7) (8 * 1440) := rfl
    rw [h1]
    exact dayLoop_avWk_nonpos_none [] "p1" "P" dur hd fuel
  · intro fuel
    have h1 : get_available_slots fuel storeDur (some "p1") (some "t0")
        (7 * 1440) (8 * 1440) =
        match providerLoop fuel storeDur (7 * 1440) (8 * 1440) 0
            [⟨"p1", "Alice", ["t0"], true⟩] with
        | none => Except.ok none
        | some available_slots =>
          Except.ok (some (List.insertionSort slotLE available_slots)) := rfl
    rw [h1]
    have h2 : find_available_slots_for_provider fuel storeDur "p1" "Alice"
        (7 * 1440) (8 * 1440) 0 =
        dayLoop fuel avWk [] "p1" "Alice" 0 (1440 * 7) (8 * 1440) := rfl
    have h3 : providerLoop fuel storeDur (7 * 1440) (8 * 1440) 0
        [⟨"p1", "Alice", ["t0"], true⟩] = none := by
      rw [providerLoop, h2, dayLoop_avWk_nonpos_none [] "p1" "Alice" 0 (by omega) fuel]
    simp only [h3]

/-- Witness for C3 at fuel 5 and duration 0. -/
theorem C3_witness :
    find_available_slots_for_provider 5 storeWk "p1" "P" (7 * 1440) (8 * 1440) 0 = none ∧
    get_available_slots 5 storeDur (some "p1") (some "t0") (7 * 1440) (8 * 1440) =
      Except.ok none :=
  ⟨C3_generation_never_rejects_nonpositive_duration.1 5 0 (by omega),
   C3_generation_never_rejects_nonpositive_duration.2 5⟩

/-- Counterexample for claim C1.  Day 7 has an exception entry (13:00-15:00)
and is not a blackout date, and window 09:00-09:30 lies outside the
exception's intervals; yet `check_provider_availability` accepts the window
(judging it against the weekly Monday entry 09:00-17:00) and the generator
emits a 09:00 slot on that date: neither function consults the exception. -/
theorem C1_counterexample :
    check_provider_availability storeEx "p1" (7 * 1440 + 540) (7 * 1440 + 570) none = true ∧
    avEx.unavailable_dates = [] ∧
    avEx.exceptions.find? (fun e => e.1 == 7) = some (7, [⟨780, 900⟩]) ∧
    specResolveWorkingIntervals avEx 7 = [⟨780, 900⟩] ∧
    windowWithin (specResolveWorkingIntervals avEx 7)
      (todOf (7 * 1440 + 540)) (todOf (7 * 1440 + 570)) = false ∧
    ((find_available_slots_for_provider 40 storeEx "p1" "P" (7 * 1440) (8 * 1440) 30).getD
        []).any (fun s => s.start_time == 7 * 1440 + 540) = true := by
  refine ⟨by decide, rfl, by decide, by decide, by decide, by decide⟩

/-- Counterexample for claim C2.  Day 7 is in the blackout set of `avBlk`,
yet the slot generator emits candidate slots on that very date (it never
reads `unavailable_dates`). -/
theorem C2_counterexample :
    avBlk.unavailable_dates.any (fun d => dateOf d == 7) = true ∧
    ((find_available_slots_for_provider 40 storeBlk "p1" "P" (7 * 1440) (8 * 1440) 30).getD
        []).any (fun s => dateOf s.start_time == 7) = true := by
  refine ⟨by decide, by decide⟩

/-- Counterexample for claim C4.  With range end Monday 10:00 (minute 10680)
the generator still walks the whole Monday schedule and emits slots whose
`start_timestamp` is at or past the exclusive range end. -/
theorem C4_counterexample :
    ((find_available_slots_for_provider 40 storeWk "p1" "P" (7 * 1440) (7 * 1440 + 600) 30).getD
        []).any (fun s => decide (s.start_time ≥ 7 * 1440 + 600)) = true := by
  decide

/-- Claim C9: the generator truncates the range start to midnight and its
booking snapshot keeps only bookings with `start_time >= start_date`; with
range start Monday 10:00, a 09:00-09:30 slot (before the range start) is
emitted even though it overlaps the scheduled booking `bookNine`, because
that booking starts before the range start and was dropped from the
snapshot. -/
theorem C9_truncation_and_unchecked_bookings :
    ((find_available_slots_for_provider 40 storeSnap "p1" "P" (7 * 1440 + 600) (8 * 1440) 30).getD
        []).any (fun s => decide (s.start_time < 7 * 1440 + 600) &&
          overlapsB s.start_time s.end_time bookNine.start_time bookNine.end_time) = true ∧
    bookNine.status = AppointmentStatus.scheduled ∧
    bookNine.provider_id = "p1" ∧
    bookNine.start_time < 7 * 1440 + 600 := by
  refine ⟨by decide, rfl, rfl, by decide⟩

/-- Claim C5: the conflict test in both the oracle and the generator is the
half-open overlap `window.start < booking.end ∧ booking.start < window.end`;
a 10:00-10:30 booking leaves the back-to-back window 10:30-11:00 available
and its 10:30 candidate slot emitted, while window 10:29-10:31 is rejected
and the overlapping 10:00 candidate slot suppressed. -/
theorem C5_overlap_half_open :
    (∀ ws we bs be : Int,
       overlapsB ws we bs be = (decide (ws < be) && decide (bs < we))) ∧
    check_provider_availability storeBook "p1" (7 * 1440 + 630) (7 * 1440 + 660) none = true ∧
    check_provider_availability storeBook "p1" (7 * 1440 + 629) (7 * 1440 + 631) none = false ∧
    ((find_available_slots_for_provider 40 storeBook "p1" "P" (7 * 1440) (8 * 1440) 30).getD
        []).any (fun s => s.start_time == 7 * 1440 + 600) = false ∧
    ((find_available_slots_for_provider 40 storeBook "p1" "P" (7 * 1440) (8 * 1440) 30).getD
        []).any (fun s => s.start_time == 7 * 1440 + 630) = true := by
  refine ⟨fun ws we bs be => rfl, by decide, by decide, by decide, by decide⟩

theorem find?_map_provider_id (f : Availability → Availability)
    (hf : ∀ a, (f a).provider_id = a.provider_id) (pid : String)
    (l : List Availability) :
    (l.map f).find? (fun a => a.provider_id == pid) =
      Option.map f (l.find? (fun a => a.provider_id == pid)) := by
  have hp : ((fun a : Availability => a.provider_id == pid) ∘ f) =
      (fun a : Availability => a.provider_id == pid) := by
    funext a
    simp [Function.comp, hf]
  rw [List.find?_map, hp]

theorem dayLoop_weekly_eq (b : List Appointment) (pid pn : String) (dur : Int)
    (av av' : Availability) (h : av.weekly_schedule = av'.weekly_schedule) :
    ∀ (fuel : Nat) (cur ed : Int),
      dayLoop fuel av b pid pn dur cur ed = dayLoop fuel av' b pid pn dur cur ed := by
  intro fuel
  induction fuel with
  | zero => intro cur ed; rfl
  | succ f ih =>
    intro cur ed
    rw [dayLoop, dayLoop, h, ih]

/-- Claim C1 (amended): neither `check_provider_availability` nor
`find_available_slots_for_provider` ever consults the `exceptions` field;
replacing every stored profile's exceptions by anything else leaves both
results unchanged, so availability on a date with an Exception entry is
judged against the weekly schedule entry, not the exception. -/
theorem C1_exceptions_not_consulted :
    ∀ (st : Store) (ex : List (Int × List TimeSlot)) (pid pn : String)
      (s e sd ed dur : Int) (x : Option String) (fuel : Nat),
      check_provider_availability (st.setExceptions ex) pid s e x =
        check_provider_availability st pid s e x ∧
      find_available_slots_for_provider fuel (st.setExceptions ex) pid pn sd ed dur =
        find_available_slots_for_provider fuel st pid pn sd ed dur := by
  intro st ex pid pn s e sd ed dur x fuel
  have hmap : ∀ q : String, (st.setExceptions ex).availability.find?
      (fun a => a.provider_id == q) =
      Option.map (fun a => a.setExceptions ex)
        (st.availability.find? (fun a => a.provider_id == q)) := by
    intro q
    exact find?_map_provider_id (fun a => a.setExceptions ex) (fun a => rfl) q
      st.availability
  constructor
  · simp only [check_provider_availability]
    rw [hmap pid]
    cases h : st.availability.find? (fun a => a.provider_id == pid) with
    | none => rfl
    | some av => rfl
  · simp only [find_available_slots_for_provider]
    rw [hmap pid]
    cases h : st.availability.find? (fun a => a.provider_id == pid) with
    | none => rfl
    | some av =>
      exact dayLoop_weekly_eq
        (st.appointments.filter fun a =>
          a.provider_id == pid && decide (a.start_time ≥ sd) &&
          decide (a.start_time < ed) && a.status == AppointmentStatus.scheduled)
        pid pn dur (av.setExceptions ex) av rfl fuel (1440 * dateOf sd) ed

/-- Claim C2 (amended): a blackout date makes `check_provider_availability`
return false for every window starting on it, but
`find_available_slots_for_provider` never reads `unavailable_dates` — its
output is invariant under that field — so the generator can still emit
candidate slots on a blackout date. -/
theorem C2_blackout_blocks_oracle_only :
    (∀ (st : Store) (pid : String) (s e : Int) (x : Option String) (av : Availability),
       st.availability.find? (fun a => a.provider_id == pid) = some av →
       av.unavailable_dates.any (fun d => dateOf d == dateOf s) = true →
       check_provider_availability st pid s e x = false) ∧
    (∀ (st : Store) (ds : List Int) (fuel : Nat) (pid pn : String) (sd ed dur : Int),
       find_available_slots_for_provider fuel (st.setUnavailable ds) pid pn sd ed dur =
         find_available_slots_for_provider fuel st pid pn sd ed dur) := by
  constructor
  · intro st pid s e x av hav hblk
    simp only [check_provider_availability, hav, hblk]
    split
    · rfl
    · split
      · rfl
      · rfl
  · intro st ds fuel pid pn sd ed dur
    have hmap : (st.setUnavailable ds).availability.find?
        (fun a => a.provider_id == pid) =
        Option.map (fun a => a.setUnavailable ds)
          (st.availability.find? (fun a => a.provider_id == pid)) :=
      find?_map_provider_id (fun a => a.setUnavailable ds) (fun a => rfl) pid
        st.availability
    simp only [find_available_slots_for_provider]
    rw [hmap]
    cases h : st.availability.find? (fun a => a.provider_id == pid) with
    | none => rfl
    | some av =>
      exact dayLoop_weekly_eq
        (st.appointments.filter fun a =>
          a.provider_id == pid && decide (a.start_time ≥ sd) &&
          decide (a.start_time < ed) && a.status == AppointmentStatus.scheduled)
        pid pn dur (av.setUnavailable ds) av rfl fuel (1440 * dateOf sd) ed

/-- Witness for C2 on the concrete blackout store: the oracle refuses the
09:00-09:30 window of blacked-out day 7, and the generator's output is
unchanged by adding day 7 to the plain profile's blackout set. -/
theorem C2_witness :
    check_provider_availability storeBlk "p1" (7 * 1440 + 540) (7 * 1440 + 570) none = false ∧
    find_available_slots_for_provider 40 (storeWk.setUnavailable [7 * 1440]) "p1" "P"
        (7 * 1440) (8 * 1440) 30 =
      find_available_slots_for_provider 40 storeWk "p1" "P" (7 * 1440) (8 * 1440) 30 :=
  ⟨C2_blackout_blocks_oracle_only.1 storeBlk "p1" (7 * 1440 + 540) (7 * 1440 + 570)
      none avBlk rfl (by decide),
   C2_blackout_blocks_oracle_only.2 storeWk [7 * 1440] 40 "p1" "P" (7 * 1440) (8 * 1440) 30⟩

theorem check_cons_irrelevant (st : Store) (a : Appointment) (pid : String)
    (s e : Int) (x : Option String)
    (hskip :
      ((fun ap => ap.provider_id == pid &&
          decide (ap.start_time ≥ dateOf s * 1440) &&
          decide (ap.start_time < (dateOf s + 1) * 1440) &&
          ap.status == AppointmentStatus.scheduled) a = false) ∨
      ((!(match x with | some ex => a.id == ex | none => false) &&
          overlapsB s e a.start_time a.end_time) = false)) :
    check_provider_availability { st with appointments := a :: st.appointments }
        pid s e x =
      check_provider_availability st pid s e x := by
  simp only [check_provider_availability]
  cases hav : st.availability.find? (fun av => av.provider_id == pid) with
  | none => rfl
  | some av =>
    rcases hskip with hskip | hskip
    · rw [List.filter_cons_of_neg (by simp [hskip])]
    · rw [List.filter_cons]
      by_cases hpa : (fun ap => ap.provider_id == pid &&
          decide (ap.start_time ≥ dateOf s * 1440) &&
          decide (ap.start_time < (dateOf s + 1) * 1440) &&
          ap.status == AppointmentStatus.scheduled) a = true
      · rw [if_pos hpa, List.any_cons, hskip, Bool.false_or]
      · rw [if_neg hpa]

/-- Claim C6: in the booking-conflict step of the oracle, a booking whose
status is not `scheduled` never changes the outcome (the snapshot query
filters on status), and when `excludeBookingId` equals a booking's id that
booking is skipped, so a reschedule is never blocked by the booking being
rescheduled. -/
theorem C6_scheduled_only_and_exclusion :
    (∀ (st : Store) (a : Appointment) (pid : String) (s e : Int) (x : Option String),
       a.status ≠ AppointmentStatus.scheduled →
       check_provider_availability { st with appointments := a :: st.appointments }
           pid s e x =
         check_provider_availability st pid s e x) ∧
    (∀ (st : Store) (a : Appointment) (pid : String) (s e : Int),
       check_provider_availability { st with appointments := a :: st.appointments }
           pid s e (some a.id) =
         check_provider_availability st pid s e (some a.id)) := by
  constructor
  · intro st a pid s e x h
    have hstat : (a.status == AppointmentStatus.scheduled) = false := by
      cases hs : a.status <;> first | rfl | simp_all
    exact check_cons_irrelevant st a pid s e x (Or.inl (by simp [hstat]))
  · intro st a pid s e
    exact check_cons_irrelevant st a pid s e (some a.id) (Or.inr (by simp))

/-- Witness for C6: a cancelled copy of the 10:00-10:30 booking does not
change the oracle's answer for the 10:00-10:30 window, and neither does the
scheduled booking itself once its id is excluded. -/
theorem C6_witness :
    check_provider_availability
        { storeWk with appointments :=
            ({ bookTen with status := AppointmentStatus.cancelled } : Appointment) ::
              storeWk.appointments }
        "p1" (7 * 1440 + 600) (7 * 1440 + 630) none =
      check_provider_availability storeWk "p1" (7 * 1440 + 600) (7 * 1440 + 630) none ∧
    check_provider_availability
        { storeWk with appointments := bookTen :: storeWk.appointments }
        "p1" (7 * 1440 + 600) (7 * 1440 + 630) (some "b1") =
      check_provider_availability storeWk "p1" (7 * 1440 + 600) (7 * 1440 + 630)
        (some "b1") :=
  ⟨C6_scheduled_only_and_exclusion.1 storeWk
      { bookTen with status := AppointmentStatus.cancelled } "p1"
      (7 * 1440 + 600) (7 * 1440 + 630) none (by decide),
   C6_scheduled_only_and_exclusion.2 storeWk bookTen "p1"
      (7 * 1440 + 600) (7 * 1440 + 630)⟩

theorem slotLoop_sound (b : List Appointment) (pid pn : String) (dur stride : Int) :
    ∀ (fuel : Nat) (c e : Int) (l : List AvailableSlot),
      slotLoop fuel b pid pn dur stride c e = some l →
      ∀ w ∈ l, ∃ k : Nat,
        w = ⟨pid, pn, c + (k : Int) * stride, c + (k : Int) * stride + dur⟩ ∧
        c + (k : Int) * stride + dur ≤ e := by
  intro fuel
  induction fuel with
  | zero => intro c e l h; exact absurd h (by simp [slotLoop])
  | succ f ih =>
    intro c e l h
    by_cases hg : c + dur ≤ e
    · simp only [slotLoop, if_pos hg] at h
      split at h
      · exact absurd h (by simp)
      · rename_i rest hr
        injection h with h
        subst h
        intro w hw
        have hshift : w ∈ rest → ∃ k : Nat,
            w = ⟨pid, pn, c + (k : Int) * stride, c + (k : Int) * stride + dur⟩ ∧
            c + (k : Int) * stride + dur ≤ e := by
          intro hw'
          obtain ⟨k, hk1, hk2⟩ := ih (c + stride) e rest hr w hw'
          refine ⟨k + 1, ?_, ?_⟩
          · rw [hk1]
            have : c + stride + (k : Int) * stride = c + ((k : Int) + 1) * stride := by
              ring
            push_cast
            rw [this]
          · push_cast
            push_cast at hk2
            linarith
        by_cases hc : (b.any fun appt =>
            overlapsB c (c + dur) appt.start_time appt.end_time) = true
        · rw [if_pos hc] at hw
          exact hshift hw
        · rw [if_neg hc] at hw
          rcases List.mem_cons.mp hw with hw' | hw'
          · refine ⟨0, by simpa using hw', by simpa using hg⟩
          · exact hshift hw'
    · cases fuelCase : (f + 1 : Nat) with
      | zero => exact absurd fuelCase (by omega)
      | succ f' =>
        rw [slotLoop, if_neg hg] at h
        injection h with h
        subst h
        intro w hw
        exact absurd hw (List.not_mem_nil w)

theorem slotLoop_complete (pid pn : String) (dur stride : Int) (hs : 0 ≤ stride) :
    ∀ (fuel : Nat) (c e : Int) (l : List AvailableSlot),
      slotLoop fuel [] pid pn dur stride c e = some l →
      ∀ k : Nat, c + (k : Int) * stride + dur ≤ e →
        (⟨pid, pn, c + (k : Int) * stride, c + (k : Int) * stride + dur⟩ :
          AvailableSlot) ∈ l := by
  intro fuel
  induction fuel with
  | zero => intro c e l h; exact absurd h (by simp [slotLoop])
  | succ f ih =>
    intro c e l h k hk
    have hknn : 0 ≤ (k : Int) * stride := mul_nonneg (by positivity) hs
    have hg : c + dur ≤ e := by omega
    simp only [slotLoop, if_pos hg] at h
    split at h
    · exact absurd h (by simp)
    · rename_i rest hr
      injection h with h
      subst h
      have hconf : (([] : List Appointment).any fun appt =>
          overlapsB c (c + dur) appt.start_time appt.end_time) = false := rfl
      rw [hconf]
      simp only [Bool.false_eq_true, if_false]
      cases k with
      | zero =>
        simpa using List.mem_cons_self _ rest
      | succ j =>
        apply List.mem_cons_of_mem
        have := ih (c + stride) e rest hr j (by push_cast; push_cast at hk; linarith)
        have harith : c + stride + (j : Int) * stride = c + ((j : Int) + 1) * stride := by
          ring
        rw [harith] at this
        push_cast
        exact this

theorem intervalLoop_shape (b : List Appointment) (pid pn : String) (dur day : Int) :
    ∀ (slots : List TimeSlot) (fuel : Nat) (l : List AvailableSlot),
      intervalLoop fuel b pid pn dur day slots = some l →
      ∀ w ∈ l, w.end_time - w.start_time = dur := by
  intro slots
  induction slots with
  | nil =>
    intro fuel l h w hw
    injection h with h
    subst h
    cases hw
  | cons ts rest ihr =>
    intro fuel l h w hw
    simp only [intervalLoop] at h
    split at h
    · exact absurd h (by simp)
    · rename_i here hrS
      split at h
      · exact absurd h (by simp)
      · rename_i more hrI
        injection h with h
        subst h
        rcases List.mem_append.mp hw with hw' | hw'
        · obtain ⟨k, hk1, _⟩ :=
            slotLoop_sound b pid pn dur (min dur 30) fuel _ _ here hrS w hw'
          rw [hk1]
          dsimp
          ring
        · exact ihr fuel more hrI w hw'

theorem dayLoop_shape (av : Availability) (b : List Appointment) (pid pn : String)
    (dur : Int) :
    ∀ (fuel : Nat) (cur ed : Int) (l : List AvailableSlot),
      dayLoop fuel av b pid pn dur cur ed = some l →
      ∀ w ∈ l, w.end_time - w.start_time = dur := by
  intro fuel
  induction fuel with
  | zero => intro cur ed l h; exact absurd h (by simp [dayLoop])
  | succ f ih =>
    intro cur ed l h
    by_cases hg : cur < ed
    · simp only [dayLoop, if_pos hg] at h
      split at h
      · exact absurd h (by simp)
      · rename_i today hrI
        split at h
        · exact absurd h (by simp)
        · rename_i rest hrD
          injection h with h
          subst h
          intro w hw
          rcases List.mem_append.mp hw with hw' | hw'
          · exact intervalLoop_shape b pid pn dur cur _ f today hrI w hw'
          · exact ih (cur + 1440) ed rest hrD w hw'
    · rw [dayLoop, if_neg hg] at h
      injection h with h
      subst h
      intro w hw
      cases hw

/-- Claim C7: every candidate slot emitted by the generator spans exactly
the requested duration, and inside one working interval the candidate
windows (before booking suppression) are exactly those at
`cursor = s + k * min(duration, 30)` with `cursor + duration ≤ e`. -/
theorem C7_duration_fidelity_and_stride :
    (∀ (fuel : Nat) (st : Store) (pid pn : String) (sd ed dur : Int),
       ((find_available_slots_for_provider fuel st pid pn sd ed dur).getD []).all
         (fun s => s.end_time - s.start_time == dur) = true) ∧
    (∀ (dur : Int), 1 ≤ dur → ∀ (pid pn : String) (fuel : Nat) (s e : Int)
       (l : List AvailableSlot),
       slotLoop fuel [] pid pn dur (min dur 30) s e = some l →
       (∀ w ∈ l, ∃ k : Nat,
          w = ⟨pid, pn, s + (k : Int) * min dur 30, s + (k : Int) * min dur 30 + dur⟩ ∧
          s + (k : Int) * min dur 30 + dur ≤ e) ∧
       (∀ k : Nat, s + (k : Int) * min dur 30 + dur ≤ e →
          (⟨pid, pn, s + (k : Int) * min dur 30, s + (k : Int) * min dur 30 + dur⟩ :
            AvailableSlot) ∈ l)) := by
  constructor
  · intro fuel st pid pn sd ed dur
    cases hF : find_available_slots_for_provider fuel st pid pn sd ed dur with
    | none => rfl
    | some l =>
      simp only [find_available_slots_for_provider] at hF
      split at hF
      · injection hF with h'
        subst h'
        rfl
      · rename_i av hav
        have hsh := dayLoop_shape av _ pid pn dur fuel _ ed l hF
        simp only [Option.getD_some, List.all_eq_true]
        intro w hw
        simpa using hsh w hw
  · intro dur hdur pid pn fuel s e l h
    refine ⟨slotLoop_sound [] pid pn dur (min dur 30) fuel s e l h, ?_⟩
    exact slotLoop_complete pid pn dur (min dur 30)
      (le_min (by omega) (by norm_num)) fuel s e l h

/-- Witness for C7: duration fidelity on a concrete run, and the
characterization of the duration-45 loop over interval `[0,100)` (stride
30): window `[30,75)` is produced. -/
theorem C7_witness :
    ((find_available_slots_for_provider 40 storeWk "p1" "P" (7 * 1440) (8 * 1440) 30).getD
        []).all (fun s => s.end_time - s.start_time == 30) = true ∧
    (⟨"p", "P", (0 : Int) + (1 : Nat) * min 45 30,
        (0 : Int) + (1 : Nat) * min 45 30 + 45⟩ : AvailableSlot) ∈
      [(⟨"p", "P", 0, 45⟩ : AvailableSlot), ⟨"p", "P", 30, 75⟩] :=
  ⟨C7_duration_fidelity_and_stride.1 40 storeWk "p1" "P" (7 * 1440) (8 * 1440) 30,
   (C7_duration_fidelity_and_stride.2 45 (by omega) "p" "P" 20 0 100
       [⟨"p", "P", 0, 45⟩, ⟨"p", "P", 30, 75⟩] (by decide)).2 1 (by decide)⟩

theorem intervalLoop_nonpos_eq_nil (b : List Appointment) (pid pn : String)
    (dur day : Int) (hd : dur ≤ 0) :
    ∀ (slots : List TimeSlot) (fuel : Nat) (l : List AvailableSlot),
      intervalLoop fuel b pid pn dur day slots = some l → l = [] := by
  intro slots
  induction slots with
  | nil =>
    intro fuel l h
    injection h with h
    exact h.symm
  | cons ts rest ihr =>
    intro fuel l h
    simp only [intervalLoop] at h
    split at h
    · exact absurd h (by simp)
    · rename_i here hrS
      split at h
      · exact absurd h (by simp)
      · rename_i more hrI
        injection h with h
        subst h
        rw [slotLoop_nonpos_eq_nil b pid pn (le_trans (min_le_left dur 30) hd) hd hrS,
          ihr fuel more hrI]
        rfl

theorem validTimes_day {ws : WeeklySchedule} (h : ws.validTimes) (w : Int) :
    ∀ ts ∈ ws.day w, ts.validTimes := by
  obtain ⟨h1, h2, h3, h4, h5, h6, h7⟩ := h
  unfold WeeklySchedule.day
  split_ifs <;> assumption

theorem intervalLoop_start_bound (b : List Appointment) (pid pn : String)
    (dur day : Int) :
    ∀ (slots : List TimeSlot), (∀ ts ∈ slots, ts.validTimes) →
      ∀ (fuel : Nat) (l : List AvailableSlot),
        intervalLoop fuel b pid pn dur day slots = some l →
        ∀ w ∈ l, day ≤ w.start_time ∧ w.start_time < day + 1440 := by
  intro slots
  induction slots with
  | nil =>
    intro _ fuel l h w hw
    injection h with h
    subst h
    cases hw
  | cons ts rest ihr =>
    intro hwf fuel l h w hw
    simp only [intervalLoop] at h
    split at h
    · exact absurd h (by simp)
    · rename_i here hrS
      split at h
      · exact absurd h (by simp)
      · rename_i more hrI
        injection h with h
        subst h
        rcases List.mem_append.mp hw with hw' | hw'
        · by_cases hd : dur ≤ 0
          · rw [slotLoop_nonpos_eq_nil b pid pn (le_trans (min_le_left dur 30) hd)
              hd hrS] at hw'
            cases hw'
          · push_neg at hd
            obtain ⟨k, hk1, hk2⟩ :=
              slotLoop_sound b pid pn dur (min dur 30) fuel _ _ here hrS w hw'
            obtain ⟨hts0, hts1⟩ := hwf ts (List.mem_cons_self ts rest)
            have hstr : (1 : Int) ≤ min dur 30 := le_min (by omega) (by norm_num)
            have hknn : 0 ≤ (k : Int) * min dur 30 :=
              mul_nonneg (by positivity) (by omega)
            constructor
            · rw [hk1]
              dsimp
              linarith
            · rw [hk1]
              dsimp
              linarith
        · exact ihr (fun t ht => hwf t (List.mem_cons_of_mem ts ht)) fuel more hrI w hw'

theorem dayLoop_start_bound (av : Availability) (b : List Appointment)
    (pid pn : String) (dur : Int) (hwf : av.weekly_schedule.validTimes) :
    ∀ (fuel : Nat) (k ed : Int) (l : List AvailableSlot),
      dayLoop fuel av b pid pn dur (1440 * k) ed = some l →
      ∀ w ∈ l, 1440 * dateOf w.start_time < ed := by
  intro fuel
  induction fuel with
  | zero => intro k ed l h; exact absurd h (by simp [dayLoop])
  | succ f ih =>
    intro k ed l h
    by_cases hg : 1440 * k < ed
    · simp only [dayLoop, if_pos hg] at h
      split at h
      · exact absurd h (by simp)
      · rename_i today hrI
        split at h
        · exact absurd h (by simp)
        · rename_i rest hrD
          injection h with h
          subst h
          intro w hw
          rcases List.mem_append.mp hw with hw' | hw'
          · obtain ⟨hb1, hb2⟩ := intervalLoop_start_bound b pid pn dur (1440 * k) _
              (validTimes_day hwf _) f today hrI w hw'
            have hdw : dateOf w.start_time = k := by
              unfold dateOf
              omega
            rw [hdw]
            exact hg
          · have h' : 1440 * k + 1440 = 1440 * (k + 1) := by ring
            rw [h'] at hrD
            exact ih (k + 1) ed rest hrD w hw'
    · rw [dayLoop, if_neg hg] at h
      injection h with h
      subst h
      intro w hw
      cases hw

/-- Claim C4 (amended): with valid stored wall-clock times, every emitted
candidate slot starts on a calendar day whose midnight precedes
`dateRangeEndExclusive` (days are iterated from the truncated start date
while day-midnight < end), but — as the counterexample shows — a slot's
`start_timestamp` itself may lie at or past `dateRangeEndExclusive` inside
the final iterated day. -/
theorem C4_slots_confined_to_iterated_days :
    ∀ (fuel : Nat) (st : Store) (pid pn : String) (sd ed dur : Int),
      st.validTimes →
      ((find_available_slots_for_provider fuel st pid pn sd ed dur).getD []).all
        (fun s => decide (1440 * dateOf s.start_time < ed)) = true := by
  intro fuel st pid pn sd ed dur hwf
  cases hF : find_available_slots_for_provider fuel st pid pn sd ed dur with
  | none => rfl
  | some l =>
    simp only [find_available_slots_for_provider] at hF
    split at hF
    · injection hF with h'
      subst h'
      rfl
    · rename_i av hav
      have hA : av.weekly_schedule.validTimes :=
        hwf av (List.mem_of_find?_eq_some hav)
      have hb := dayLoop_start_bound av _ pid pn dur hA fuel (dateOf sd) ed l hF
      simp only [Option.getD_some, List.all_eq_true]
      intro w hw
      simpa using hb w hw

/-- Witness for C4 on the concrete store: every slot of the
`[Mon 00:00, Mon 10:00)` query starts on day 7, whose midnight precedes the
range end. -/
theorem C4_witness :
    ((find_available_slots_for_provider 40 storeWk "p1" "P" (7 * 1440)
        (7 * 1440 + 600) 30).getD []).all
      (fun s => decide (1440 * dateOf s.start_time < 7 * 1440 + 600)) = true :=
  C4_slots_confined_to_iterated_days 40 storeWk "p1" "P" (7 * 1440)
    (7 * 1440 + 600) 30 (by decide)

/-- Claim C8: whenever the slot endpoint returns a list at all, that merged
multi-provider list is non-decreasing by `start_timestamp` between adjacent
elements (it is produced by the final ascending sort on `start_time`). -/
theorem C8_aggregator_sorted :
    ∀ (fuel : Nat) (st : Store) (pid atid : Option String) (sd ed : Int)
      (l : List AvailableSlot),
      get_available_slots fuel st pid atid sd ed = Except.ok (some l) →
      l.Chain' (fun a b => a.start_time ≤ b.start_time) := by
  intro fuel st pid atid sd ed l h
  simp only [get_available_slots] at h
  split at h
  · exact absurd h (by simp)
  · split at h
    · injection h with h'
      injection h' with h''
      subst h''
      exact List.chain'_nil
    · split at h
      · exact absurd h (by simp)
      · rename_i s hs
        injection h with h'
        injection h' with h''
        subst h''
        haveI : IsTotal AvailableSlot slotLE :=
          ⟨fun a b => le_total a.start_time b.start_time⟩
        haveI : IsTrans AvailableSlot slotLE :=
          ⟨fun a b c h1 h2 => le_trans h1 h2⟩
        exact ((List.sorted_insertionSort slotLE s).imp fun hab => hab).chain'

/-- Witness for C8 on the two-provider store: the merged, sorted output of
the endpoint is adjacent-non-decreasing in `start_time`. -/
theorem C8_witness :
    List.Chain' (fun a b : AvailableSlot => a.start_time ≤ b.start_time)
      [⟨"p1", "Alice", 10620, 10650⟩, ⟨"p2", "Bob", 10640, 10670⟩,
       ⟨"p1", "Alice", 10650, 10680⟩, ⟨"p2", "Bob", 10670, 10700⟩] :=
  C8_aggregator_sorted 40 storeAgg none (some "t1") (7 * 1440) (7 * 1440 + 1)
    [⟨"p1", "Alice", 10620, 10650⟩, ⟨"p2", "Bob", 10640, 10670⟩,
     ⟨"p1", "Alice", 10650, 10680⟩, ⟨"p2", "Bob", 10670, 10700⟩] (by rfl)

/-- Claim C10: `create_appointment` is atomic on error — every failing check
(missing/inactive provider, missing appointment type, missing customer,
type not offered, availability check false) raises before any write, leaving
the store unchanged; the new appointment is appended only after every check
has passed. -/
theorem C10_create_atomic_on_error :
    ∀ (st : Store) (req : AppointmentCreate) (nid : String) (now : Int),
      (∀ msg, (create_appointment st req nid now).2 = Except.error msg →
         (create_appointment st req nid now).1 = st) ∧
      (∀ a, (create_appointment st req nid now).2 = Except.ok a →
         (create_appointment st req nid now).1 =
           { st with appointments := st.appointments ++ [a] } ∧
         (∃ p, st.providers.find? (fun p => p.id == req.provider_id) = some p ∧
            p.active = true ∧
            p.appointment_types.contains req.appointment_type_id = true) ∧
         (∃ t, st.appointment_types.find?
              (fun t => t.id == req.appointment_type_id) = some t ∧
            check_provider_availability st req.provider_id req.start_time
              (req.start_time + t.duration_minutes) none = true) ∧
         (∃ c, st.customers.find? (fun c => c.id == req.customer_id) = some c)) := by
  intro st req nid now
  cases hp : st.providers.find? (fun p => p.id == req.provider_id) with
  | none =>
    have hC : create_appointment st req nid now =
        (st, Except.error "Provider not found or inactive") := by
      simp only [create_appointment, hp]
    rw [hC]
    exact ⟨fun msg _ => rfl, fun a ha => absurd ha (by simp)⟩
  | some p =>
    cases hactv : p.active with
    | false =>
      have hC : create_appointment st req nid now =
          (st, Except.error "Provider not found or inactive") := by
        simp only [create_appointment, hp, hactv]
        rfl
      rw [hC]
      exact ⟨fun msg _ => rfl, fun a ha => absurd ha (by simp)⟩
    | true =>
      cases ht : st.appointment_types.find?
          (fun t => t.id == req.appointment_type_id) with
      | none =>
        have hC : create_appointment st req nid now =
            (st, Except.error "Appointment type not found") := by
          simp only [create_appointment, hp, hactv, ht]
          rfl
        rw [hC]
        exact ⟨fun msg _ => rfl, fun a ha => absurd ha (by simp)⟩
      | some t =>
        cases hc : st.customers.find? (fun c => c.id == req.customer_id) with
        | none =>
          have hC : create_appointment st req nid now =
              (st, Except.error "Customer not found") := by
            simp only [create_appointment, hp, hactv, ht, hc]
            rfl
          rw [hC]
          exact ⟨fun msg _ => rfl, fun a ha => absurd ha (by simp)⟩
        | some c =>
          cases hoff : p.appointment_types.contains req.appointment_type_id with
          | false =>
            have hC : create_appointment st req nid now =
                (st, Except.error "This provider does not offer this appointment type") := by
              simp only [create_appointment, hp, hactv, ht, hc, hoff]
              rfl
            rw [hC]
            exact ⟨fun msg _ => rfl, fun a ha => absurd ha (by simp)⟩
          | true =>
            cases hchk : check_provider_availability st req.provider_id
                req.start_time (req.start_time + t.duration_minutes) none with
            | false =>
              have hC : create_appointment st req nid now =
                  (st, Except.error "Provider is not available at this time") := by
                simp only [create_appointment, hp, hactv, ht, hc, hoff, hchk]
                rfl
              rw [hC]
              exact ⟨fun msg _ => rfl, fun a ha => absurd ha (by simp)⟩
            | true =>
              have hC : create_appointment st req nid now =
                  ({ st with appointments := st.appointments ++
                      [⟨nid, req.provider_id, req.customer_id,
                        req.appointment_type_id, req.start_time,
                        req.start_time + t.duration_minutes,
                        AppointmentStatus.scheduled, req.notes, now, now⟩] },
                   Except.ok ⟨nid, req.provider_id, req.customer_id,
                      req.appointment_type_id, req.start_time,
                      req.start_time + t.duration_minutes,
                      AppointmentStatus.scheduled, req.notes, now, now⟩) := by
                simp only [create_appointment, hp, hactv, ht, hc, hoff, hchk]
                rfl
              rw [hC]
              refine ⟨fun msg hmsg => absurd hmsg (by simp), fun a ha => ?_⟩
              injection ha with ha
              subst ha
              exact ⟨rfl, ⟨p, rfl, hactv, hoff⟩, ⟨t, rfl, hchk⟩, ⟨c, rfl⟩⟩

/-- Witness for C10: creating against the empty store fails the provider
check and leaves the store unchanged. -/
theorem C10_witness :
    (create_appointment emptyStore reqOne "a1" 0).1 = emptyStore :=
  (C10_create_atomic_on_error emptyStore reqOne "a1" 0).1
    "Provider not found or inactive" rfl
